import Mathlib

/-!
Verification of the bandsaw PNG auto-trim core (`src/index.js`).

The embedding models the pure computational core of the library:

* `scan` — the pixel loop of `trimCanvas` (lines 124–133) that finds the
  bounding box of pixels with a non-zero alpha sample.  The JS loop walks
  `i = 0, 4, 8, …` over `pixels.data` (length `4 * width * height`) and
  treats `pixels.data[i+3]` as the alpha of pixel `p = i / 4`; here the
  image carries `alpha : Nat → Nat` directly, indexed by `p`.
* `padBound` / `clampBox` — the padding and clamping passes
  (lines 136–149), including JavaScript's coercion of `null` bound
  coordinates to `0` in arithmetic.
* `isBetween` / `clamp` — the numeric helpers (lines 208–219); a separate
  JS-value model (`isBetweenJS` / `clampJS`) keeps the NaN/undefined
  behavior of the originals.
* `trimCanvas` — assembly of the returned crop record (lines 177–193).
* `promiseAll` / `trim` — the batch aggregation over per-image pipelines
  (lines 42–49), with the completion order of the per-image promises as an
  explicit parameter.
-/

/-- A decoded RGBA image as painted onto the temporary canvas:
`width`/`height` are the canvas dimensions and `alpha p` is the alpha
sample `pixels.data[4*p + 3]` of pixel `p` (row-major, top-left origin),
meaningful for `p < width * height`. -/
structure Image where
  width : Nat
  height : Nat
  alpha : Nat → Nat

/-- The bound accumulator of `trimCanvas` (lines 114–119): each coordinate
starts as JavaScript `null` (here `none`). -/
structure Bound where
  top : Option Nat
  left : Option Nat
  right : Option Nat
  bottom : Option Nat
deriving Repr, DecidableEq

def Bound.init : Bound := ⟨none, none, none, none⟩

/-- One iteration of the pixel loop (lines 124–133) at pixel `p` with alpha
sample `a`: when `a !== 0`, `x = p % width` and `y = ~~(p / width)` update
the four bound coordinates exactly as the source conditionals do. -/
def scanStep (w : Nat) (b : Bound) (p : Nat) (a : Nat) : Bound :=
  if a ≠ 0 then
    let x := p % w
    let y := p / w
    { top := match b.top with
        | none => some y
        | some t => some t
      left := match b.left with
        | none => some x
        | some l => if x < l then some x else some l
      right := match b.right with
        | none => some x
        | some r => if r < x then some x else some r
      bottom := match b.bottom with
        | none => some y
        | some bo => if bo < y then some y else some bo }
  else b

/-- The pixel loop run over the first `n` pixels. -/
def scanAux (img : Image) (n : Nat) : Bound :=
  (List.range n).foldl (fun b p => scanStep img.width b p (img.alpha p)) Bound.init

/-- The whole pixel loop of `trimCanvas` (lines 124–133): the JS loop bound
`i < pixels.data.length` visits exactly the pixels `p < width * height`. -/
def scan (img : Image) : Bound := scanAux img (img.width * img.height)

/-- A bound after the padding pass: every coordinate is now a plain number. -/
structure Box where
  top : Int
  left : Int
  right : Int
  bottom : Int
deriving Repr, DecidableEq

/-- The padding pass (lines 136–140): subtract `padding` from `top`/`left`,
add it to `right`/`bottom`.  A coordinate still `null` (fully transparent
image) coerces to `0` in JavaScript arithmetic, hence `Option.getD 0`. -/
def padBound (b : Bound) (padding : Int) : Box :=
  { top := (b.top.getD 0 : Nat) - padding
    left := (b.left.getD 0 : Nat) - padding
    right := (b.right.getD 0 : Nat) + padding
    bottom := (b.bottom.getD 0 : Nat) + padding }

/-- `isBetween` (lines 208–212) restricted to integer arguments: the falsy
guards `(!min && min !== 0) || (!max && max !== 0)` and the
`arguments.length < 3` check are all false for three number arguments
(for `min = 0` the conjunct `min !== 0` fails), leaving the inclusive
range test. -/
def isBetween (value mi ma : Int) : Bool :=
  mi ≤ value && value ≤ ma

/-- `clamp` (lines 215–219) restricted to integer arguments.  The JS
function has no final `else` and returns `undefined` when all three
branches fail; for integer inputs that cannot happen (`¬ isBetween`
forces `value < min ∨ value > max`), so the last branch is written as the
`value > max` case.  `clampJS` below keeps the original partiality. -/
def clamp (value mi ma : Int) : Int :=
  if isBetween value mi ma then value
  else if value < mi then mi
  else ma

/-- The clamping pass (lines 143–149): `left`/`right` clamp into
`[0, width]`, `top`/`bottom` into `[0, height]` (the regex
`/left|right/i` matches exactly the `left` and `right` keys). -/
def clampBox (b : Box) (w h : Nat) : Box :=
  { top := clamp b.top 0 h
    left := clamp b.left 0 w
    right := clamp b.right 0 w
    bottom := clamp b.bottom 0 h }

/-- `filepath.split(/(\/|\\)/).pop()` — the last path component (lines
178–182).  With the capture group, JS keeps the separators in the split
array, but `pop()` still returns the final element, the text after the
last separator. -/
def lastPathComponent (filepath : String) : String :=
  (filepath.split fun c => c == '/' || c == '\\').getLastD ""

/-- `.replace(/\.png$/, "")` — strip a final `.png` extension. -/
def stripPngExt (s : String) : String :=
  if s.endsWith ".png" then s.dropRight 4 else s

/-- The record returned by `trimCanvas` (lines 177–193).  `left`/`top`/
`right`/`bottom` are edge distances from the original canvas edges,
`geometricBounds` the raw `[left, top, right, bottom]` pixel coordinates
of the post-padding post-clamp box. -/
structure CropResult where
  name : String
  fullName : String
  path : String
  left : Int
  top : Int
  right : Int
  bottom : Int
  width : Int
  height : Int
  naturalWidth : Int
  naturalHeight : Int
  geometricBounds : List Int
deriving Repr, DecidableEq

/-- `trimCanvas` (lines 105–194): scan, pad, clamp, then assemble the
returned record.  The file rewrite and canvas painting are side effects
outside the model; the crop rectangle passed to `getImageData`
(lines 152–159) is `(left, top, width, height)` of this record. -/
def trimCanvas (img : Image) (filepath : String) (padding : Int) : CropResult :=
  let bound := clampBox (padBound (scan img) padding) img.width img.height
  { name := stripPngExt (lastPathComponent filepath)
    fullName := lastPathComponent filepath
    path := filepath
    left := bound.left
    top := bound.top
    right := (img.width : Int) - bound.right
    bottom := (img.height : Int) - bound.bottom
    width := bound.right - bound.left
    height := bound.bottom - bound.top
    naturalWidth := (img.width : Int)
    naturalHeight := (img.height : Int)
    geometricBounds := [bound.left, bound.top, bound.right, bound.bottom] }

/-! ### JavaScript value model for the numeric helpers

`clamp` and `isBetween` receive arbitrary JS numbers; in particular the
padding is produced by `+padding` (line 18) and can be `NaN`, which then
contaminates every padded bound coordinate.  `JSVal` models the values
that can reach these helpers in that flow. -/

inductive JSVal where
  | undefined
  | nan
  | num (n : Int)
deriving Repr, DecidableEq

/-- JS falsiness of a `JSVal`: `undefined`, `NaN` and `0` are falsy. -/
def jsFalsy : JSVal → Bool
  | .undefined => true
  | .nan => true
  | .num n => n == 0

/-- JS strict inequality `v !== 0` (`NaN !== 0` and `undefined !== 0`
are both true). -/
def jsStrictNeZero : JSVal → Bool
  | .num n => n != 0
  | _ => true

/-- JS `a >= b`: any comparison involving `NaN` or `undefined` (which
coerces to `NaN`) is false. -/
def jsGe : JSVal → JSVal → Bool
  | .num a, .num b => b ≤ a
  | _, _ => false

/-- JS `a <= b`. -/
def jsLe : JSVal → JSVal → Bool
  | .num a, .num b => a ≤ b
  | _, _ => false

/-- JS `a < b`. -/
def jsLt : JSVal → JSVal → Bool
  | .num a, .num b => a < b
  | _, _ => false

/-- JS `a > b`. -/
def jsGt : JSVal → JSVal → Bool
  | .num a, .num b => b < a
  | _, _ => false

/-- `isBetween` (lines 208–212) over JS values, guards included; called
with three arguments, so `arguments.length < 3` is false. -/
def isBetweenJS (value mi ma : JSVal) : Bool :=
  if (jsFalsy mi && jsStrictNeZero mi) || (jsFalsy ma && jsStrictNeZero ma) then false
  else jsGe value mi && jsLe value ma

/-- `clamp` (lines 215–219) over JS values: when all three branches fail
(e.g. a `NaN` value), the function body ends and JS returns `undefined`. -/
def clampJS (value mi ma : JSVal) : JSVal :=
  if isBetweenJS value mi ma then value
  else if jsLt value mi then mi
  else if jsGt value ma then ma
  else .undefined

/-- One coordinate of the padding pass (lines 136–140) over JS values:
the bound coordinate is `null` (`none`) or a number, the padding any JS
number; `null` coerces to `0`, and arithmetic with `NaN` (or `undefined`)
yields `NaN`. -/
def padCoordJS (v : Option Nat) (padding : JSVal) (isTopLeft : Bool) : JSVal :=
  match padding with
  | .num p => .num (if isTopLeft then (v.getD 0 : Nat) - p else (v.getD 0 : Nat) + p)
  | _ => .nan

/-! ### Batch model

`trim` (lines 42–49) after input filtering: an early return of the empty
list, otherwise `Promise.all(list.map(item => trimItem(item, padding)))`.
`Promise.all` fulfills with an array holding each promise's value at that
promise's index (regardless of settlement order) and rejects with the
first rejection as soon as one input promise rejects.  The settlement
order is the explicit `order` parameter: a list of pipeline indices in
the order their promises settle. -/

/-- The per-index fulfillment slots after the settlements in `order` have
been delivered: each fulfilled pipeline writes its value into its own
slot. -/
def deliver (res : Nat → Except ε α) (order : List Nat) : Nat → Option α :=
  order.foldl
    (fun acc i => match res i with
      | .ok a => Function.update acc i (some a)
      | .error _ => acc)
    (fun _ => none)

/-- The first rejection in settlement order, if any. -/
def firstError (res : Nat → Except ε α) (order : List Nat) : Option ε :=
  order.findSome? fun i =>
    match res i with
    | .error e => some e
    | .ok _ => none

/-- `Promise.all` over `n` pipeline promises with results `res` and
settlement order `order`: rejects with the first rejection, otherwise
fulfills with the slots in index order. -/
def promiseAll (n : Nat) (res : Nat → Except ε α) (order : List Nat) :
    Except ε (List (Option α)) :=
  match firstError res order with
  | some e => .error e
  | none => .ok ((List.range n).map (deliver res order))

/-- `trim` (lines 42–49) on the surviving (filtered, flattened) path list:
`if (!list.length) return list;` then
`return await Promise.all(list.map(item => trimItem(item, padding)))`. -/
def trim (paths : List String) (run : String → Except ε α) (order : List Nat) :
    Except ε (List (Option α)) :=
  if paths.isEmpty then .ok []
  else promiseAll paths.length (fun i => run (paths.getD i "")) order

/-! ### Helper lemmas about `clamp` -/

/-- Unfolded case description of `clamp` with lower bound `0`. -/
lemma clamp_eq_cases (v ma : Int) :
    clamp v 0 ma = if 0 ≤ v ∧ v ≤ ma then v else if v < 0 then 0 else ma := by
  simp only [clamp, isBetween, Bool.and_eq_true, decide_eq_true_eq]

/-- `clamp` with lower bound `0` and a nonnegative upper bound lands in
`[0, ma]`. -/
lemma clamp_mem (v ma : Int) (hma : 0 ≤ ma) :
    0 ≤ clamp v 0 ma ∧ clamp v 0 ma ≤ ma := by
  rw [clamp_eq_cases]
  split_ifs <;> omega

/-- `clamp` with lower bound `0` and a nonnegative upper bound is monotone
in the clamped value. -/
lemma clamp_mono (v v' ma : Int) (hma : 0 ≤ ma) (h : v ≤ v') :
    clamp v 0 ma ≤ clamp v' 0 ma := by
  rw [clamp_eq_cases, clamp_eq_cases]
  split_ifs <;> omega

/-- Coherence of the integer restriction with the JS-value model: on three
number arguments the two `clamp`s agree (in particular the implicit
`undefined` branch of the JS function is unreachable there). -/
lemma clampJS_num (v mi ma : Int) :
    clampJS (.num v) (.num mi) (.num ma) = .num (clamp v mi ma) := by
  simp only [clampJS, clamp, isBetweenJS, isBetween, jsFalsy, jsStrictNeZero, jsGe, jsLe,
    jsLt, jsGt]
  split_ifs <;> first | rfl | omega | simp_all

/-! ### Concrete images used by witnesses and counterexamples -/

/-- A 1×1 image whose only pixel is fully transparent. -/
def transparentImg : Image := ⟨1, 1, fun _ => 0⟩

/-- A 2×2 image whose opaque region covers the entire canvas. -/
def fullImg2 : Image := ⟨2, 2, fun _ => 255⟩

/-- C10: every crop record built by `trimCanvas` satisfies
`left + width + right = naturalWidth`, `top + height + bottom =
naturalHeight`, and its `geometricBounds` equal
`[left, top, naturalWidth - right, naturalHeight - bottom]`: the
edge-distance fields and the pixel-coordinate bounds are mutually
consistent views of the same crop box. -/
theorem C10_cropResult_invariants (img : Image) (filepath : String) (padding : Int) :
    (trimCanvas img filepath padding).left + (trimCanvas img filepath padding).width +
        (trimCanvas img filepath padding).right = (trimCanvas img filepath padding).naturalWidth ∧
    (trimCanvas img filepath padding).top + (trimCanvas img filepath padding).height +
        (trimCanvas img filepath padding).bottom = (trimCanvas img filepath padding).naturalHeight ∧
    (trimCanvas img filepath padding).geometricBounds =
      [(trimCanvas img filepath padding).left,
       (trimCanvas img filepath padding).top,
       (trimCanvas img filepath padding).naturalWidth - (trimCanvas img filepath padding).right,
       (trimCanvas img filepath padding).naturalHeight - (trimCanvas img filepath padding).bottom] := by
  simp only [trimCanvas]
  refine ⟨by ring, by ring, ?_⟩
  have hsub : ∀ a c : Int, a - (a - c) = c := fun a c => by ring
  rw [hsub, hsub]

/-- C9: `clamp` is not total over its numeric inputs: arithmetic with a
NaN padding turns every padded bound coordinate into NaN, and `clamp` on
a NaN value falls through all three branches and returns `undefined`
instead of a number. -/
theorem C9_clamp_nan_returns_undefined (v : Option Nat) (tl : Bool) (mi ma : Int) :
    padCoordJS v .nan tl = .nan ∧
    clampJS (padCoordJS v .nan tl) (.num mi) (.num ma) = .undefined ∧
    clampJS .nan (.num mi) (.num ma) = .undefined := by
  refine ⟨rfl, ?_, ?_⟩ <;>
    simp [clampJS, isBetweenJS, jsFalsy, jsStrictNeZero, jsGe, jsLe, jsLt, jsGt, padCoordJS]

/-- C6: for a non-empty bounding box, padding is subtracted from `top` and
`left` and added to `right` and `bottom`, then `left`/`right` are clamped
independently into `[0, width]` and `top`/`bottom` into `[0, height]`;
the clamped coordinates are never negative or out of bounds, and a
padding at least as large as both dimensions yields exactly the
full-canvas box `⟨top 0, left 0, right width, bottom height⟩`. -/
theorem C6_pad_then_clamp (t l r b w h : Nat) (p : Int)
    (hl : l < w) (ht : t < h) (_hr : r < w) (_hb : b < h) :
    clampBox (padBound ⟨some t, some l, some r, some b⟩ p) w h =
      ⟨clamp ((t : Int) - p) 0 h, clamp ((l : Int) - p) 0 w,
       clamp ((r : Int) + p) 0 w, clamp ((b : Int) + p) 0 h⟩ ∧
    (0 ≤ clamp ((l : Int) - p) 0 w ∧ clamp ((l : Int) - p) 0 w ≤ w ∧
     0 ≤ clamp ((r : Int) + p) 0 w ∧ clamp ((r : Int) + p) 0 w ≤ w ∧
     0 ≤ clamp ((t : Int) - p) 0 h ∧ clamp ((t : Int) - p) 0 h ≤ h ∧
     0 ≤ clamp ((b : Int) + p) 0 h ∧ clamp ((b : Int) + p) 0 h ≤ h) ∧
    ((w : Int) ≤ p → (h : Int) ≤ p →
      clampBox (padBound ⟨some t, some l, some r, some b⟩ p) w h =
        ⟨0, 0, (w : Int), (h : Int)⟩) := by
  have hw : (0 : Int) ≤ (w : Int) := Int.natCast_nonneg w
  have hh : (0 : Int) ≤ (h : Int) := Int.natCast_nonneg h
  have hl' : (l : Int) < (w : Int) := by exact_mod_cast hl
  have ht' : (t : Int) < (h : Int) := by exact_mod_cast ht
  refine ⟨rfl, ?_, ?_⟩
  · exact ⟨(clamp_mem _ _ hw).1, (clamp_mem _ _ hw).2, (clamp_mem _ _ hw).1,
      (clamp_mem _ _ hw).2, (clamp_mem _ _ hh).1, (clamp_mem _ _ hh).2,
      (clamp_mem _ _ hh).1, (clamp_mem _ _ hh).2⟩
  · intro hwp hhp
    simp only [clampBox, padBound, Option.getD_some, Box.mk.injEq]
    have hr' : (0 : Int) ≤ (r : Int) := Int.natCast_nonneg r
    have hb' : (0 : Int) ≤ (b : Int) := Int.natCast_nonneg b
    refine ⟨?_, ?_, ?_, ?_⟩ <;> (rw [clamp_eq_cases]; split_ifs <;> omega)

/-- C6 witness: the theorem applied to the unit box of a 1×1 canvas with
padding 5 (padding exceeding both dimensions). -/
theorem C6_pad_then_clamp_witness :
    ((0 : Nat) < 1 ∧ (0 : Nat) < 1 ∧ (0 : Nat) < 1 ∧ (0 : Nat) < 1) ∧
    (clampBox (padBound ⟨some 0, some 0, some 0, some 0⟩ 5) 1 1 =
      ⟨clamp (((0 : Nat) : Int) - 5) 0 1, clamp (((0 : Nat) : Int) - 5) 0 1,
       clamp (((0 : Nat) : Int) + 5) 0 1, clamp (((0 : Nat) : Int) + 5) 0 1⟩ ∧
    (0 ≤ clamp (((0 : Nat) : Int) - 5) 0 1 ∧ clamp (((0 : Nat) : Int) - 5) 0 1 ≤ 1 ∧
     0 ≤ clamp (((0 : Nat) : Int) + 5) 0 1 ∧ clamp (((0 : Nat) : Int) + 5) 0 1 ≤ 1 ∧
     0 ≤ clamp (((0 : Nat) : Int) - 5) 0 1 ∧ clamp (((0 : Nat) : Int) - 5) 0 1 ≤ 1 ∧
     0 ≤ clamp (((0 : Nat) : Int) + 5) 0 1 ∧ clamp (((0 : Nat) : Int) + 5) 0 1 ≤ 1) ∧
    (((1 : Nat) : Int) ≤ 5 → ((1 : Nat) : Int) ≤ 5 →
      clampBox (padBound ⟨some 0, some 0, some 0, some 0⟩ 5) 1 1 =
        ⟨0, 0, ((1 : Nat) : Int), ((1 : Nat) : Int)⟩)) :=
  ⟨by decide, C6_pad_then_clamp 0 0 0 0 1 1 5 (by decide) (by decide) (by decide) (by decide)⟩

/-- C7: for paddings `p2 > p1 ≥ 0`, the post-padding post-clamp crop box
produced with `p2` contains the one produced with `p1`: its left/top are
no larger and its right/bottom no smaller. -/
theorem C7_padding_monotone (img : Image) (p1 p2 : Int) (_h0 : 0 ≤ p1) (h12 : p1 < p2) :
    (clampBox (padBound (scan img) p2) img.width img.height).left ≤
      (clampBox (padBound (scan img) p1) img.width img.height).left ∧
    (clampBox (padBound (scan img) p2) img.width img.height).top ≤
      (clampBox (padBound (scan img) p1) img.width img.height).top ∧
    (clampBox (padBound (scan img) p1) img.width img.height).right ≤
      (clampBox (padBound (scan img) p2) img.width img.height).right ∧
    (clampBox (padBound (scan img) p1) img.width img.height).bottom ≤
      (clampBox (padBound (scan img) p2) img.width img.height).bottom := by
  simp only [clampBox, padBound]
  have hw : (0 : Int) ≤ (img.width : Int) := Int.natCast_nonneg _
  have hh : (0 : Int) ≤ (img.height : Int) := Int.natCast_nonneg _
  exact ⟨clamp_mono _ _ _ hw (by omega), clamp_mono _ _ _ hh (by omega),
    clamp_mono _ _ _ hw (by omega), clamp_mono _ _ _ hh (by omega)⟩

/-- C7 witness: the theorem applied to the fully opaque 2×2 image with
paddings 0 and 1. -/
theorem C7_padding_monotone_witness :
    ((0 : Int) ≤ 0 ∧ (0 : Int) < 1) ∧
    ((clampBox (padBound (scan fullImg2) 1) fullImg2.width fullImg2.height).left ≤
      (clampBox (padBound (scan fullImg2) 0) fullImg2.width fullImg2.height).left ∧
    (clampBox (padBound (scan fullImg2) 1) fullImg2.width fullImg2.height).top ≤
      (clampBox (padBound (scan fullImg2) 0) fullImg2.width fullImg2.height).top ∧
    (clampBox (padBound (scan fullImg2) 0) fullImg2.width fullImg2.height).right ≤
      (clampBox (padBound (scan fullImg2) 1) fullImg2.width fullImg2.height).right ∧
    (clampBox (padBound (scan fullImg2) 0) fullImg2.width fullImg2.height).bottom ≤
      (clampBox (padBound (scan fullImg2) 1) fullImg2.width fullImg2.height).bottom) :=
  ⟨by decide, C7_padding_monotone fullImg2 0 1 (by decide) (by decide)⟩

/-- C3 (code evaluation at the failing input): on a fully transparent
image the scan leaves every bound coordinate `null`; padding 0 then
coerces the `null`s to 0 and `trimCanvas` silently builds a degenerate
0×0 crop box instead of reporting an error or leaving the file
unmodified. -/
theorem C3_transparent_degenerate :
    scan transparentImg = Bound.init ∧
    (trimCanvas transparentImg "ghost.png" 0).width = 0 ∧
    (trimCanvas transparentImg "ghost.png" 0).height = 0 ∧
    (trimCanvas transparentImg "ghost.png" 0).geometricBounds = [0, 0, 0, 0] := by
  decide

/-! ### Characterization of the bounds scan -/

/-- Unrolling the pixel loop by one pixel. -/
lemma scanAux_succ (img : Image) (n : Nat) :
    scanAux img (n + 1) = scanStep img.width (scanAux img n) n (img.alpha n) := by
  unfold scanAux
  rw [List.range_succ, List.foldl_append, List.foldl_cons, List.foldl_nil]

/-- Loop invariant of the pixel scan over the first `n` pixels: either no
pixel so far had a non-zero alpha and every bound coordinate is still
`null`, or all four coordinates are set, each is attained at some scanned
pixel with non-zero alpha, and they bound the column (`p % width`) and
row (`p / width`) of every scanned pixel with non-zero alpha from the
correct side. -/
lemma scanAux_spec (img : Image) (n : Nat) :
    (scanAux img n = Bound.init ∧ ∀ p, p < n → img.alpha p = 0) ∨
    (∃ t l r b : Nat, scanAux img n = ⟨some t, some l, some r, some b⟩ ∧
      (∃ p, p < n ∧ img.alpha p ≠ 0 ∧ p / img.width = t) ∧
      (∃ p, p < n ∧ img.alpha p ≠ 0 ∧ p % img.width = l) ∧
      (∃ p, p < n ∧ img.alpha p ≠ 0 ∧ p % img.width = r) ∧
      (∃ p, p < n ∧ img.alpha p ≠ 0 ∧ p / img.width = b) ∧
      (∀ p, p < n → img.alpha p ≠ 0 →
        t ≤ p / img.width ∧ l ≤ p % img.width ∧ p % img.width ≤ r ∧ p / img.width ≤ b)) := by
  induction n with
  | zero =>
    left
    exact ⟨rfl, fun p hp => absurd hp (Nat.not_lt_zero p)⟩
  | succ n ih =>
    rw [scanAux_succ]
    by_cases ha : img.alpha n = 0
    · rcases ih with ⟨hb, hall⟩ | ⟨t, l, r, b, hb, hat, hal, har, hab, hbnd⟩
      · left
        refine ⟨by simp [scanStep, ha, hb], fun p hp => ?_⟩
        rcases Nat.lt_succ_iff_lt_or_eq.mp hp with h | h
        · exact hall p h
        · exact h ▸ ha
      · right
        refine ⟨t, l, r, b, by simp [scanStep, ha, hb], ?_, ?_, ?_, ?_, ?_⟩
        · obtain ⟨p, hp, h1, h2⟩ := hat
          exact ⟨p, Nat.lt_succ_of_lt hp, h1, h2⟩
        · obtain ⟨p, hp, h1, h2⟩ := hal
          exact ⟨p, Nat.lt_succ_of_lt hp, h1, h2⟩
        · obtain ⟨p, hp, h1, h2⟩ := har
          exact ⟨p, Nat.lt_succ_of_lt hp, h1, h2⟩
        · obtain ⟨p, hp, h1, h2⟩ := hab
          exact ⟨p, Nat.lt_succ_of_lt hp, h1, h2⟩
        · intro p hp hpa
          rcases Nat.lt_succ_iff_lt_or_eq.mp hp with h | h
          · exact hbnd p h hpa
          · exact absurd (h ▸ ha) hpa
    · rcases ih with ⟨hb, hall⟩ | ⟨t, l, r, b, hb, hat, hal, har, hab, hbnd⟩
      · right
        refine ⟨n / img.width, n % img.width, n % img.width, n / img.width,
          by simp [scanStep, ha, hb, Bound.init], ⟨n, Nat.lt_succ_self n, ha, rfl⟩,
          ⟨n, Nat.lt_succ_self n, ha, rfl⟩, ⟨n, Nat.lt_succ_self n, ha, rfl⟩,
          ⟨n, Nat.lt_succ_self n, ha, rfl⟩, ?_⟩
        intro p hp hpa
        rcases Nat.lt_succ_iff_lt_or_eq.mp hp with h | h
        · exact absurd (hall p h) hpa
        · subst h
          exact ⟨Nat.le_refl _, Nat.le_refl _, Nat.le_refl _, Nat.le_refl _⟩
      · right
        refine ⟨t,
          if n % img.width < l then n % img.width else l,
          if r < n % img.width then n % img.width else r,
          if b < n / img.width then n / img.width else b,
          ?_, ?_, ?_, ?_, ?_, ?_⟩
        · simp only [scanStep, ha, hb, if_pos, ne_eq, not_false_eq_true, if_true, ite_not]
          split_ifs <;> rfl
        · obtain ⟨p, hp, h1, h2⟩ := hat
          exact ⟨p, Nat.lt_succ_of_lt hp, h1, h2⟩
        · by_cases hc : n % img.width < l
          · exact ⟨n, Nat.lt_succ_self n, ha, by simp [hc]⟩
          · obtain ⟨p, hp, h1, h2⟩ := hal
            exact ⟨p, Nat.lt_succ_of_lt hp, h1, by simp [hc, h2]⟩
        · by_cases hc : r < n % img.width
          · exact ⟨n, Nat.lt_succ_self n, ha, by simp [hc]⟩
          · obtain ⟨p, hp, h1, h2⟩ := har
            exact ⟨p, Nat.lt_succ_of_lt hp, h1, by simp [hc, h2]⟩
        · by_cases hc : b < n / img.width
          · exact ⟨n, Nat.lt_succ_self n, ha, by simp [hc]⟩
          · obtain ⟨p, hp, h1, h2⟩ := hab
            exact ⟨p, Nat.lt_succ_of_lt hp, h1, by simp [hc, h2]⟩
        · intro p hp hpa
          rcases Nat.lt_succ_iff_lt_or_eq.mp hp with h | h
          · have hold := hbnd p h hpa
            obtain ⟨pt, hpt, hpt1, hpt2⟩ := hat
            split_ifs <;> omega
          · subst h
            obtain ⟨pt, hpt, hpt1, hpt2⟩ := hat
            have hdiv : pt / img.width ≤ p / img.width :=
              Nat.div_le_div_right (Nat.le_of_lt hpt)
            split_ifs <;> omega

/-- The scan of an image with at least one non-zero-alpha pixel: all four
bound coordinates are set, attained, and extremal. -/
lemma scan_spec (img : Image) (h : ∃ p, p < img.width * img.height ∧ img.alpha p ≠ 0) :
    ∃ t l r b : Nat, scan img = ⟨some t, some l, some r, some b⟩ ∧
      (∃ p, p < img.width * img.height ∧ img.alpha p ≠ 0 ∧ p / img.width = t) ∧
      (∃ p, p < img.width * img.height ∧ img.alpha p ≠ 0 ∧ p % img.width = l) ∧
      (∃ p, p < img.width * img.height ∧ img.alpha p ≠ 0 ∧ p % img.width = r) ∧
      (∃ p, p < img.width * img.height ∧ img.alpha p ≠ 0 ∧ p / img.width = b) ∧
      (∀ p, p < img.width * img.height → img.alpha p ≠ 0 →
        t ≤ p / img.width ∧ l ≤ p % img.width ∧ p % img.width ≤ r ∧ p / img.width ≤ b) := by
  rcases scanAux_spec img (img.width * img.height) with ⟨_, hall⟩ | hgood
  · obtain ⟨p, hp, hpa⟩ := h
    exact absurd (hall p hp) hpa
  · exact hgood

/-- The set of column indices of non-zero-alpha pixels. -/
def relCols (img : Image) : Set Nat :=
  {x | ∃ p, p < img.width * img.height ∧ img.alpha p ≠ 0 ∧ p % img.width = x}

/-- The set of row indices of non-zero-alpha pixels. -/
def relRows (img : Image) : Set Nat :=
  {y | ∃ p, p < img.width * img.height ∧ img.alpha p ≠ 0 ∧ p / img.width = y}

/-- C5: for every image with at least one pixel of non-zero alpha, the
bounds scan returns `top` = minimum row index, `bottom` = maximum row
index, `left` = minimum column index and `right` = maximum column index
over all non-zero-alpha pixels — four independent extrema — and they
satisfy `left ≤ right < width` and `top ≤ bottom < height` (all four are
naturals, so `0 ≤ left` and `0 ≤ top` hold by type). -/
theorem C5_scan_extrema (img : Image)
    (h : ∃ p, p < img.width * img.height ∧ img.alpha p ≠ 0) :
    ∃ t l r b : Nat, scan img = ⟨some t, some l, some r, some b⟩ ∧
      IsLeast (relRows img) t ∧ IsGreatest (relRows img) b ∧
      IsLeast (relCols img) l ∧ IsGreatest (relCols img) r ∧
      l ≤ r ∧ r < img.width ∧ t ≤ b ∧ b < img.height := by
  obtain ⟨t, l, r, b, hsc, ⟨pt, hpt, hpt1, hpt2⟩, ⟨pl, hpl, hpl1, hpl2⟩,
    ⟨pr, hpr, hpr1, hpr2⟩, ⟨pb, hpb, hpb1, hpb2⟩, hbnd⟩ := scan_spec img h
  have hwpos : 0 < img.width := by
    rcases Nat.eq_zero_or_pos img.width with hw | hw
    · obtain ⟨p, hp, _⟩ := h
      rw [hw, Nat.zero_mul] at hp
      exact absurd hp (Nat.not_lt_zero p)
    · exact hw
  refine ⟨t, l, r, b, hsc, ⟨⟨pt, hpt, hpt1, hpt2⟩, ?_⟩, ⟨⟨pb, hpb, hpb1, hpb2⟩, ?_⟩,
    ⟨⟨pl, hpl, hpl1, hpl2⟩, ?_⟩, ⟨⟨pr, hpr, hpr1, hpr2⟩, ?_⟩, ?_, ?_, ?_, ?_⟩
  · rintro y ⟨p, hp, hpa, rfl⟩
    exact (hbnd p hp hpa).1
  · rintro y ⟨p, hp, hpa, rfl⟩
    exact (hbnd p hp hpa).2.2.2
  · rintro x ⟨p, hp, hpa, rfl⟩
    exact (hbnd p hp hpa).2.1
  · rintro x ⟨p, hp, hpa, rfl⟩
    exact (hbnd p hp hpa).2.2.1
  · have := hbnd pr hpr hpr1
    omega
  · exact hpr2 ▸ Nat.mod_lt pr hwpos
  · have := hbnd pb hpb hpb1
    omega
  · exact hpb2 ▸ Nat.div_lt_of_lt_mul hpb

/-- C5 witness: the theorem applied to a 2×2 image whose single
non-zero-alpha pixel is pixel 2 (column 0, row 1). -/
def dotImg2 : Image := ⟨2, 2, fun p => if p = 2 then 7 else 0⟩

theorem C5_scan_extrema_witness :
    (∃ p, p < dotImg2.width * dotImg2.height ∧ dotImg2.alpha p ≠ 0) ∧
    (∃ t l r b : Nat, scan dotImg2 = ⟨some t, some l, some r, some b⟩ ∧
      IsLeast (relRows dotImg2) t ∧ IsGreatest (relRows dotImg2) b ∧
      IsLeast (relCols dotImg2) l ∧ IsGreatest (relCols dotImg2) r ∧
      l ≤ r ∧ r < dotImg2.width ∧ t ≤ b ∧ b < dotImg2.height) :=
  ⟨⟨2, by decide, by decide⟩, C5_scan_extrema dotImg2 ⟨2, by decide, by decide⟩⟩

/-- The scan of an image whose non-zero-alpha region covers the whole
(non-degenerate) canvas: the extrema are the canvas corners, with the
*inclusive* right/bottom extrema `width - 1` and `height - 1`. -/
lemma scan_full (img : Image) (hw : 1 ≤ img.width) (hh : 1 ≤ img.height)
    (hfull : ∀ p, p < img.width * img.height → img.alpha p ≠ 0) :
    scan img = ⟨some 0, some 0, some (img.width - 1), some (img.height - 1)⟩ := by
  have hwpos : 0 < img.width := hw
  have hpos : 0 < img.width * img.height := Nat.mul_pos hw hh
  obtain ⟨t, l, r, b, hsc, _, _, ⟨pr, hpr, hpr1, hpr2⟩, ⟨pb, hpb, hpb1, hpb2⟩, hbnd⟩ :=
    scan_spec img ⟨0, hpos, hfull 0 hpos⟩
  have h0 := hbnd 0 hpos (hfull 0 hpos)
  rw [Nat.zero_div, Nat.zero_mod] at h0
  have hrlt : r < img.width := hpr2 ▸ Nat.mod_lt pr hwpos
  have hwin : img.width - 1 < img.width * img.height :=
    Nat.lt_of_lt_of_le (by omega) (Nat.le_mul_of_pos_right img.width hh)
  have hrge : img.width - 1 ≤ r := by
    have := (hbnd (img.width - 1) hwin (hfull _ hwin)).2.2.1
    rwa [Nat.mod_eq_of_lt (by omega)] at this
  have hblt : b < img.height := hpb2 ▸ Nat.div_lt_of_lt_mul hpb
  have hlast : img.width * img.height - 1 < img.width * img.height := by omega
  have hkey : (img.width * img.height - 1) / img.width = img.height - 1 := by
    obtain ⟨h', hh'⟩ : ∃ h', img.height = h' + 1 := ⟨img.height - 1, by omega⟩
    rw [hh', Nat.mul_succ]
    have hsplit : img.width * h' + img.width - 1 = img.width * h' + (img.width - 1) := by
      omega
    rw [hsplit, Nat.mul_add_div hwpos, Nat.div_eq_of_lt (by omega)]
    omega
  have hbge : img.height - 1 ≤ b := by
    have := (hbnd _ hlast (hfull _ hlast)).2.2.2
    rwa [hkey] at this
  have ht0 : t = 0 := by omega
  have hl0 : l = 0 := by omega
  have hr0 : r = img.width - 1 := by omega
  have hb0 : b = img.height - 1 := by omega
  rw [hsc, ht0, hl0, hr0, hb0]

/-- C2 (amended): for every image with `width, height ≥ 1` whose
non-zero-alpha region covers the entire canvas, `trimCanvas` with padding
0 returns edge distances `left = top = 0` but `right = bottom = 1` and a
crop of `naturalWidth - 1` by `naturalHeight - 1`: the inclusive
right/bottom extrema cost the crop its last row and column. -/
theorem C2_full_coverage_result (img : Image) (filepath : String)
    (hw : 1 ≤ img.width) (hh : 1 ≤ img.height)
    (hfull : ∀ p, p < img.width * img.height → img.alpha p ≠ 0) :
    (trimCanvas img filepath 0).left = 0 ∧ (trimCanvas img filepath 0).top = 0 ∧
    (trimCanvas img filepath 0).right = 1 ∧ (trimCanvas img filepath 0).bottom = 1 ∧
    (trimCanvas img filepath 0).width = (img.width : Int) - 1 ∧
    (trimCanvas img filepath 0).height = (img.height : Int) - 1 := by
  have hw' : (1 : Int) ≤ (img.width : Int) := by exact_mod_cast hw
  have hh' : (1 : Int) ≤ (img.height : Int) := by exact_mod_cast hh
  have hbox : clampBox (padBound (scan img) 0) img.width img.height =
      ⟨0, 0, (img.width : Int) - 1, (img.height : Int) - 1⟩ := by
    rw [scan_full img hw hh hfull]
    simp only [clampBox, padBound, Option.getD_some, Nat.cast_zero, sub_zero, add_zero,
      Nat.cast_sub hw, Nat.cast_sub hh, Nat.cast_one, Box.mk.injEq]
    refine ⟨?_, ?_, ?_, ?_⟩ <;> (rw [clamp_eq_cases]; split_ifs <;> omega)
  refine ⟨?_, ?_, ?_, ?_, ?_, ?_⟩ <;>
    first
      | (simp only [trimCanvas, hbox]; ring)
      | simp [trimCanvas, hbox]

/-- C2 counterexample: on the fully opaque 2×2 image, the crop width is 1,
not the natural width 2, and the right edge distance is 1, not 0. -/
theorem C2_counterexample :
    (trimCanvas fullImg2 "full.png" 0).width ≠ 2 ∧
    (trimCanvas fullImg2 "full.png" 0).right ≠ 0 := by
  decide

/-- C2 witness: the amended theorem applied to the fully opaque 2×2
image. -/
theorem C2_full_coverage_result_witness :
    (1 ≤ fullImg2.width ∧ 1 ≤ fullImg2.height ∧
      ∀ p, p < fullImg2.width * fullImg2.height → fullImg2.alpha p ≠ 0) ∧
    ((trimCanvas fullImg2 "full.png" 0).left = 0 ∧
     (trimCanvas fullImg2 "full.png" 0).top = 0 ∧
     (trimCanvas fullImg2 "full.png" 0).right = 1 ∧
     (trimCanvas fullImg2 "full.png" 0).bottom = 1 ∧
     (trimCanvas fullImg2 "full.png" 0).width = (fullImg2.width : Int) - 1 ∧
     (trimCanvas fullImg2 "full.png" 0).height = (fullImg2.height : Int) - 1) :=
  ⟨⟨by decide, by decide, by decide⟩,
   C2_full_coverage_result fullImg2 "full.png" (by decide) (by decide) (by decide)⟩

/-! ### The spec's end-to-end example image (claim C1) -/

/-- A 1000×1000 RGBA image whose only non-transparent pixels form a fully
opaque 100×100 square at offset (50,50): pixel `p` (column `p % 1000`,
row `p / 1000`) is opaque exactly when both coordinates lie in
`[50, 149]`. -/
def squareImage : Image :=
  ⟨1000, 1000, fun p =>
    if 50 ≤ p % 1000 ∧ p % 1000 ≤ 149 ∧ 50 ≤ p / 1000 ∧ p / 1000 ≤ 149 then 255 else 0⟩

/-- A non-zero-alpha pixel of `squareImage` has both coordinates in
`[50, 149]`. -/
lemma squareImage_alpha_ne_zero {p : Nat} (h : squareImage.alpha p ≠ 0) :
    50 ≤ p % 1000 ∧ p % 1000 ≤ 149 ∧ 50 ≤ p / 1000 ∧ p / 1000 ≤ 149 := by
  by_contra hc
  exact h (by simp [squareImage, hc])

/-- The bounds scan of the example image: inclusive extrema
(50, 50, 149, 149). -/
lemma squareImage_scan : scan squareImage = ⟨some 50, some 50, some 149, some 149⟩ := by
  have hrel : ∀ q ∈ [50050, 50149, 149050],
      q < squareImage.width * squareImage.height ∧ squareImage.alpha q ≠ 0 := by
    decide
  obtain ⟨t, l, r, b, hsc, ⟨pt, hpt, hpt1, hpt2⟩, ⟨pl, hpl, hpl1, hpl2⟩,
      ⟨pr, hpr, hpr1, hpr2⟩, ⟨pb, hpb, hpb1, hpb2⟩, hbnd⟩ :=
    scan_spec squareImage ⟨50050, (hrel 50050 (by simp)).1, (hrel 50050 (by simp)).2⟩
  have hw1000 : squareImage.width = 1000 := rfl
  rw [hw1000] at hpt2 hpl2 hpr2 hpb2
  have h1 := hbnd 50050 (hrel 50050 (by simp)).1 (hrel 50050 (by simp)).2
  have h2 := hbnd 50149 (hrel 50149 (by simp)).1 (hrel 50149 (by simp)).2
  have h3 := hbnd 149050 (hrel 149050 (by simp)).1 (hrel 149050 (by simp)).2
  rw [hw1000] at h1 h2 h3
  norm_num at h1 h2 h3
  have ht' := squareImage_alpha_ne_zero hpt1
  have hl' := squareImage_alpha_ne_zero hpl1
  have hr' := squareImage_alpha_ne_zero hpr1
  have hb' := squareImage_alpha_ne_zero hpb1
  have ht0 : t = 50 := by omega
  have hl0 : l = 50 := by omega
  have hr0 : r = 149 := by omega
  have hb0 : b = 149 := by omega
  rw [hsc, ht0, hl0, hr0, hb0]

/-- The post-padding (0) post-clamp crop box of the example image. -/
lemma squareImage_box :
    clampBox (padBound (scan squareImage) 0) squareImage.width squareImage.height =
      ⟨50, 50, 149, 149⟩ := by
  rw [squareImage_scan]
  decide

/-- C1 counterexample: on the spec's end-to-end example image
(1000×1000, opaque 100×100 square at offset (50,50)) with padding 0, the
code returns crop width 99 and right edge distance 851 — not the
width 100, right 850 and geometricBounds `[50,50,150,150]` the claim
states. -/
theorem C1_counterexample :
    (trimCanvas squareImage "testImage.png" 0).width ≠ 100 ∧
    (trimCanvas squareImage "testImage.png" 0).right ≠ 850 ∧
    (trimCanvas squareImage "testImage.png" 0).geometricBounds ≠ [50, 50, 150, 150] := by
  refine ⟨?_, ?_, ?_⟩ <;> (simp only [trimCanvas, squareImage_box]; decide)

/-- C1 (amended): the end-to-end example returns left = top = 50,
naturalWidth = naturalHeight = 1000, but — because the scan's
right/bottom extrema are the *inclusive* pixel coordinates 149 — right =
bottom = 851, width = height = 99 and geometricBounds `[50,50,149,149]`
(the documented 1-pixel clipping discrepancy on the right/bottom
edges). -/
theorem C1_example_result :
    (trimCanvas squareImage "testImage.png" 0).left = 50 ∧
    (trimCanvas squareImage "testImage.png" 0).top = 50 ∧
    (trimCanvas squareImage "testImage.png" 0).right = 851 ∧
    (trimCanvas squareImage "testImage.png" 0).bottom = 851 ∧
    (trimCanvas squareImage "testImage.png" 0).width = 99 ∧
    (trimCanvas squareImage "testImage.png" 0).height = 99 ∧
    (trimCanvas squareImage "testImage.png" 0).naturalWidth = 1000 ∧
    (trimCanvas squareImage "testImage.png" 0).naturalHeight = 1000 ∧
    (trimCanvas squareImage "testImage.png" 0).geometricBounds = [50, 50, 149, 149] := by
  refine ⟨?_, ?_, ?_, ?_, ?_, ?_, ?_, ?_, ?_⟩ <;>
    first
      | (simp only [trimCanvas, squareImage_box]; decide)
      | simp [trimCanvas, squareImage_box]

/-! ### Batch aggregation: helper lemmas -/

/-- `findSome?` succeeds when some list element is mapped to `some`. -/
lemma findSome?_isSome_of_mem {α β : Type} (f : α → Option β) (l : List α) (a : α)
    (ha : a ∈ l) (hf : (f a).isSome) : (l.findSome? f).isSome := by
  induction l with
  | nil => cases ha
  | cons x xs ih =>
    rw [List.findSome?_cons]
    cases hx : f x with
    | some v => simp
    | none =>
      rcases List.mem_cons.mp ha with rfl | hmem
      · rw [hx] at hf
        simp at hf
      · exact ih hmem

/-- When every pipeline fulfills, a slot holds the pipeline's value as soon
as its index appears in the settlement order. -/
lemma deliver_all_ok {ε α : Type} (res : Nat → Except ε α) (f : Nat → α)
    (hres : ∀ i, res i = .ok (f i)) (order : List Nat) (i : Nat) :
    deliver res order i = if i ∈ order then some (f i) else none := by
  suffices h : ∀ (order : List Nat) (acc : Nat → Option α),
      (order.foldl (fun acc j => match res j with
        | .ok a => Function.update acc j (some a)
        | .error _ => acc) acc) i = if i ∈ order then some (f i) else acc i by
    exact h order (fun _ => none)
  intro order
  induction order with
  | nil => intro acc; simp
  | cons x xs ih =>
    intro acc
    rw [List.foldl_cons, hres x]
    rw [ih]
    by_cases hx : i ∈ xs
    · simp [hx]
    · by_cases hix : i = x
      · subst hix
        simp [hx, Function.update_apply]
      · simp [hx, hix, Function.update_apply]

/-- When every pipeline fulfills there is no rejection to deliver. -/
lemma firstError_all_ok {ε α : Type} (res : Nat → Except ε α) (f : Nat → α)
    (hres : ∀ i, res i = .ok (f i)) (order : List Nat) :
    firstError res order = none := by
  rw [firstError, List.findSome?_eq_none_iff]
  intro i _
  rw [hres i]

/-- C4 counterexample: a batch of two images where the first pipeline
fulfills with a result and the second rejects — `Promise.all` makes the
whole batch reject with that error, so the first image's result is not
reported in any returned sequence. -/
theorem C4_counterexample :
    trim ["a.png", "b.png"]
        (fun s => if s == "a.png" then Except.ok (1 : Nat) else Except.error "boom")
        [0, 1] =
      Except.error "boom" := by
  rfl

/-- C4 (amended): a failure in one image's pipeline makes the whole batch
reject with an error (the `Promise.all` aggregate), so the sibling
images' results — though their pipelines still run — are not reported in
a returned sequence. -/
theorem C4_batch_rejects_on_failure {ε α : Type} (paths : List String)
    (run : String → Except ε α) (order : List Nat)
    (h : ∃ i, i ∈ order ∧ ∃ e, run (paths.getD i "") = .error e)
    (hne : paths ≠ []) :
    ∃ e, trim paths run order = Except.error e := by
  obtain ⟨i, hi, e, he⟩ := h
  have hsome : (firstError (fun j => run (paths.getD j "")) order).isSome := by
    apply findSome?_isSome_of_mem _ order i hi
    simp only [he]
    rfl
  obtain ⟨e', he'⟩ := Option.isSome_iff_exists.mp hsome
  refine ⟨e', ?_⟩
  rw [trim, if_neg (by simpa [List.isEmpty_iff] using hne), promiseAll, he']

/-- C4 witness: the amended theorem applied to the two-image batch of the
counterexample. -/
theorem C4_batch_rejects_witness :
    ((∃ i, i ∈ [0, 1] ∧ ∃ e,
        (fun s => if s == "a.png" then Except.ok (1 : Nat) else Except.error "boom")
          ((["a.png", "b.png"] : List String).getD i "") = .error e) ∧
      (["a.png", "b.png"] : List String) ≠ []) ∧
    (∃ e, trim ["a.png", "b.png"]
        (fun s => if s == "a.png" then Except.ok (1 : Nat) else Except.error "boom")
        [0, 1] = Except.error e) :=
  ⟨⟨⟨1, by decide, "boom", by rfl⟩, by decide⟩,
   C4_batch_rejects_on_failure ["a.png", "b.png"]
     (fun s => if s == "a.png" then Except.ok (1 : Nat) else Except.error "boom")
     [0, 1] ⟨1, by decide, "boom", by rfl⟩ (by decide)⟩

/-- C8: when every per-image pipeline succeeds, the batch returns exactly
one result per surviving path, slotted in the caller-supplied input
order, for *every* settlement order that eventually delivers each
pipeline's completion; and on an empty surviving list it returns the
empty list for every pipeline (no pipeline can influence the result). -/
theorem C8_batch_input_order {ε α : Type} (paths : List String) (run : String → α)
    (order : List Nat) (hord : ∀ i, i < paths.length → i ∈ order) :
    trim paths (fun s => (Except.ok (run s) : Except ε α)) order =
      Except.ok (paths.map fun s => some (run s)) ∧
    (∀ run2 : String → Except ε α, trim [] run2 order = Except.ok []) := by
  constructor
  · by_cases hpe : paths.isEmpty
    · rw [trim, if_pos hpe]
      rw [List.isEmpty_iff.mp hpe]
      rfl
    · rw [trim, if_neg hpe, promiseAll,
        firstError_all_ok _ (fun i => run (paths.getD i "")) (fun i => rfl)]
      show Except.ok ((List.range paths.length).map
          (deliver (fun i => Except.ok (run (paths.getD i ""))) order)) =
        Except.ok (paths.map fun s => some (run s))
      congr 1
      apply List.ext_getElem
      · simp
      · intro n h1 h2
        simp only [List.getElem_map, List.getElem_range]
        have hn : n < paths.length := by simpa using h2
        rw [deliver_all_ok _ (fun i => run (paths.getD i "")) (fun i => rfl),
          if_pos (hord n hn)]
        simp [List.getD_eq_getElem?_getD, List.getElem?_eq_getElem hn]
  · intro run2
    rfl

/-- C8 witness: a two-image batch whose second pipeline settles first
(settlement order `[1, 0]`) still reports results in input order. -/
theorem C8_batch_input_order_witness :
    (∀ i, i < (["a.png", "b.png"] : List String).length → i ∈ [1, 0]) ∧
    (trim ["a.png", "b.png"] (fun s => (Except.ok s.length : Except String Nat)) [1, 0] =
        Except.ok ((["a.png", "b.png"] : List String).map fun s => some s.length) ∧
      (∀ run2 : String → Except String Nat, trim [] run2 [1, 0] = Except.ok [])) :=
  ⟨by decide,
   C8_batch_input_order ["a.png", "b.png"] (fun s => s.length) [1, 0] (by decide)⟩
